import Mathlib

/-!
Verification of the Rx schema-validation engine (src/python/Rx.py).

The embedding models the generic parsed data the engine consumes (null,
booleans, numbers, strings, ordered sequences, and key-value mappings,
per the spec's data model; numbers are modelled as rationals), the
compiled validators of the fourteen core kinds, the check-time
semantics of each kind, and the factory with its prefix and type
registries, URI expansion, prefix/type registration, type learning and
the recursive schema compiler.

Python dicts are modelled as association lists whose lookup returns the
first matching key and whose assignment replaces in place (preserving
insertion order) or appends, matching Python dict semantics for
duplicate-free lists.  Python truthiness is modelled per type.  The
compiler, which may recurse through learned (stored) schema documents
and is therefore not structurally recursive, takes a fuel parameter.

Compiled range checks appear twice: `Schema`/`check` hold the bounds
as rationals (the numeric-bounds fragment of the compiled state, on
which checking is a total boolean function), while `SchemaR`/`checkE`
keep the raw captured bound values exactly as the source's closures
do, so that the check-time TypeError a non-numeric stored bound causes
in Python 3 is representable.
-/

/-- Errors raised by the engine at compile/registration time
(SchemaError, ValueError, KeyError and TypeError in the source);
`fuelExhausted` marks exhaustion of the compiler fuel parameter. -/
inductive RxError where
  | schemaError (msg : String)
  | valueError (msg : String)
  | keyError (msg : String)
  | typeError (msg : String)
  | fuelExhausted
deriving DecidableEq

/-- A runtime value: the generic parsed data structure the engine
consumes (maps, ordered sequences, scalars).  Python's bool is kept
separate from numbers because the source distinguishes it with
isinstance checks, but it still counts as a Number (see `toNum`).
Python lists and tuples are both modelled by `varr`. -/
inductive Value where
  | vnull
  | vbool (b : Bool)
  | vnum (q : ℚ)
  | vstr (s : String)
  | varr (items : List Value)
  | vdict (entries : List (String × Value))

/-- isinstance(value, Number) together with the numeric content:
booleans are Numbers in Python (True == 1, False == 0). -/
def toNum : Value → Option ℚ
  | .vbool b => some (if b then 1 else 0)
  | .vnum q => some q
  | _ => none

/-- isinstance(value, bool). -/
def isVBool : Value → Bool
  | .vbool _ => true
  | _ => false

/-- isinstance(value, string_types). -/
def isVStr : Value → Bool
  | .vstr _ => true
  | _ => false

/-- value is None. -/
def isVNull : Value → Bool
  | .vnull => true
  | _ => false

/-- isinstance(value, (Number, string_types)) used by the one type. -/
def isNumOrStr (v : Value) : Bool :=
  (toNum v).isSome || isVStr v

/-- Python truthiness of a value (used by the source's schema.get(...)
tests during compilation). -/
def pyTruthy : Value → Bool
  | .vnull => false
  | .vbool b => b
  | .vnum q => decide (q ≠ 0)
  | .vstr s => decide (s ≠ "")
  | .varr items => !items.isEmpty
  | .vdict entries => !entries.isEmpty

/-- Python iteration over a value: lists/tuples yield their items,
strings yield their one-character substrings, dicts yield their keys;
other values raise TypeError. -/
def pyIter : Value → Except RxError (List Value)
  | .varr items => .ok items
  | .vstr s => .ok (s.toList.map (fun c => .vstr (String.mk [c])))
  | .vdict entries => .ok (entries.map (fun p => .vstr p.1))
  | _ => .error (.typeError "value is not iterable")

/-- Python dict lookup (dict.get / the in operator): first matching
key, if any. -/
def dGet {α : Type} : List (String × α) → String → Option α
  | [], _ => none
  | (k, v) :: rest, key => if k = key then some v else dGet rest key

/-- Python dict assignment d[k] = v: replaces the value in place if the
key is present (Python dicts keep the original insertion position),
otherwise appends. -/
def dSet {α : Type} : List (String × α) → String → α → List (String × α)
  | [], key, v => [(key, v)]
  | (k0, v0) :: rest, key, v =>
    if k0 = key then (key, v) :: rest else (k0, v0) :: dSet rest key v

/-- set(allowed).issuperset(d): every key of the dict is allowed. -/
def checkKeys (allowed : List String) (entries : List (String × Value)) : Bool :=
  entries.all (fun p => decide (p.1 ∈ allowed))

/-- The captured state of a compiled range check: the four optional
bounds of Util.make_range_check (min, max, min-ex, max-ex).  The
source captures the raw bound values in a closure; the documented
range-specification format makes them numeric, so they are stored here
as rationals. -/
structure RangeCheck where
  minB : Option ℚ
  maxB : Option ℚ
  minEx : Option ℚ
  maxEx : Option ℚ
deriving DecidableEq

/-- r.get(key, infinity-default) followed by a comparison: an absent
bound never constrains. -/
def boundB (o : Option ℚ) (f : ℚ → Bool) : Bool :=
  match o with
  | none => true
  | some m => f m

/-- The closure check_range returned by Util.make_range_check:
min <= value and max >= value and min-ex < value and max-ex > value,
with absent bounds defaulting to minus/plus infinity. -/
def check_range (r : RangeCheck) (value : ℚ) : Bool :=
  boundB r.minB (fun m => decide (m ≤ value)) &&
  boundB r.maxB (fun m => decide (value ≤ m)) &&
  boundB r.minEx (fun m => decide (m < value)) &&
  boundB r.maxEx (fun m => decide (value < m))

/-- The allowed keys of a range specification. -/
def rangeKeys : List String := ["min", "max", "min-ex", "max-ex"]

/-- Reads one bound of a range specification and converts it to a
rational: the numeric-bounds projection of the compiled range state.
The source itself stores the raw value uninspected — that faithful raw
form is make_range_check_raw / check_range_raw below, whose check may
raise; this projection is the fragment the documented numeric range
format describes. -/
def getBound (opt : List (String × Value)) (k : String) : Except RxError (Option ℚ) :=
  match dGet opt k with
  | none => .ok none
  | some v =>
    match toNum v with
    | some q => .ok (some q)
    | none => .error (.typeError "non-numeric bound in range specification")

/-- Util.make_range_check: rejects unknown keys, rejects an inclusive
and exclusive bound on the same side, and produces the captured
`RangeCheck` state of the returned predicate. -/
def make_range_check (opt : List (String × Value)) : Except RxError RangeCheck :=
  if checkKeys rangeKeys opt = false then
    .error (.valueError "illegal argument to make range check")
  else if (dGet opt "min").isSome && (dGet opt "min-ex").isSome then
    .error (.valueError "cannot define both exclusive and inclusive min")
  else if (dGet opt "max").isSome && (dGet opt "max-ex").isSome then
    .error (.valueError "cannot define both exclusive and inclusive max")
  else do
    let mn ← getBound opt "min"
    let mx ← getBound opt "max"
    let mnx ← getBound opt "min-ex"
    let mxx ← getBound opt "max-ex"
    .ok ⟨mn, mx, mnx, mxx⟩

/-- A compiled validator: one constructor per core type, holding the
state the corresponding Python instance holds after __init__ (fixed
values as rationals/strings, compiled range checks, and compiled
child validators).  Range checks hold rational bounds, so this is the
numeric-bounds fragment of the raw compiled state; `SchemaR` below
keeps the raw captured bounds and carries the check-time exception
channel. -/
inductive Schema where
  | allS (alts : List Schema)
  | anyS (alts : Option (List Schema))
  | arrS (contents : Schema) (length : Option RangeCheck)
  | boolS
  | defS
  | failS
  | intS (range : Option RangeCheck) (value : Option ℚ)
  | mapS (values : Schema)
  | nilS
  | numS (range : Option RangeCheck) (value : Option ℚ)
  | oneS
  | recS (required : List (String × Schema)) (optional : List (String × Schema))
         (rest : Option Schema)
  | seqS (contents : List Schema) (tail : Option Schema)
  | strS (value : Option String) (length : Option RangeCheck)

/-- self.known of a compiled rec validator: the required field names
together with the optional field names. -/
def knownKeys (req opt : List (String × Schema)) : List String :=
  req.map Prod.fst ++ opt.map Prod.fst

/-- The unknown keys of a checked mapping: keys of the value that are
not known to the rec validator, in order. -/
def unknownKeys (req opt : List (String × Schema))
    (entries : List (String × Value)) : List String :=
  (entries.map Prod.fst).filter (fun k => !(decide (k ∈ knownKeys req opt)))

/-- The sub-mapping of a checked mapping restricted to the given keys
(the rest dict built by RecType.check). -/
def restrict (entries : List (String × Value)) (ks : List String) :
    List (String × Value) :=
  ks.filterMap (fun k => (dGet entries k).map (fun x => (k, x)))

/-- self.range is None or self.range(value). -/
def boundRange (o : Option RangeCheck) (q : ℚ) : Bool :=
  match o with
  | none => true
  | some r => check_range r q

/-- self.value is None or value == self.value (numeric equality). -/
def valMatch (w : Option ℚ) (q : ℚ) : Bool :=
  match w with
  | none => true
  | some x => decide (q = x)

mutual

/-- check(value) of a compiled validator, one branch per core type,
following the corresponding Python check method. -/
def check (s : Schema) (v : Value) : Bool :=
  match s with
  | .allS alts => checkList alts v
  | .anyS alts =>
      match alts with
      | none => true
      | some l => checkAny l v
  | .arrS cs len =>
      match v with
      | .varr items => boundRange len ((items.length : ℚ)) && checkItems cs items
      | _ => false
  | .boolS => isVBool v
  | .defS => !(isVNull v)
  | .failS => false
  | .intS r w =>
      match toNum v with
      | none => false
      | some q => !(isVBool v) && decide (q.den = 1) && boundRange r q && valMatch w q
  | .mapS vs =>
      match v with
      | .vdict entries => checkItems vs (entries.map Prod.snd)
      | _ => false
  | .nilS => isVNull v
  | .numS r w =>
      match toNum v with
      | none => false
      | some q => !(isVBool v) && boundRange r q && valMatch w q
  | .oneS => isNumOrStr v
  | .recS req opt rest =>
      match v with
      | .vdict entries =>
        if unknownKeys req opt entries ≠ [] ∧ rest.isNone = true then false
        else
          checkReq req entries && checkOpt opt entries &&
            (if unknownKeys req opt entries = [] then true
             else
               match rest with
               | some r => check r (.vdict (restrict entries (unknownKeys req opt entries)))
               | none => false)
      | _ => false
  | .seqS cs tl =>
      match v with
      | .varr items =>
        if items.length < cs.length then false
        else
          checkZip cs items &&
            (if cs.length < items.length then
               match tl with
               | some t => check t (.varr (items.drop cs.length))
               | none => false
             else true)
      | _ => false
  | .strS w len =>
      match v with
      | .vstr s =>
        (match w with
         | none => true
         | some fixed => decide (s = fixed)) &&
        boundRange len ((s.length : ℚ))
      | _ => false
termination_by (sizeOf s, 0)

/-- all(schema.check(value) for schema in self.alts), short-circuit. -/
def checkList (ss : List Schema) (v : Value) : Bool :=
  match ss with
  | [] => true
  | s :: rest => check s v && checkList rest v
termination_by (sizeOf ss, 0)

/-- any(schema.check(value) for schema in self.alts), short-circuit. -/
def checkAny (ss : List Schema) (v : Value) : Bool :=
  match ss with
  | [] => false
  | s :: rest => check s v || checkAny rest v
termination_by (sizeOf ss, 0)

/-- all(content_schema.check(item) for item in value): every item
against the same schema (arr contents, map values). -/
def checkItems (cs : Schema) (items : List Value) : Bool :=
  match items with
  | [] => true
  | x :: xs => check cs x && checkItems cs xs
termination_by (sizeOf cs, items.length + 1)

/-- The positional loop of SeqType.check: the i-th schema against the
i-th item. -/
def checkZip (ss : List Schema) (xs : List Value) : Bool :=
  match ss, xs with
  | [], _ => true
  | _ :: _, [] => false
  | s :: ss, x :: xs => check s x && checkZip ss xs
termination_by (sizeOf ss, 0)

/-- The required-field loop of RecType.check: each field must be
present and satisfy its schema. -/
def checkReq (fields : List (String × Schema)) (entries : List (String × Value)) : Bool :=
  match fields with
  | [] => true
  | (k, s) :: rest =>
      (match dGet entries k with
       | some x => check s x
       | none => false) && checkReq rest entries
termination_by (sizeOf fields, 0)

/-- The optional-field loop of RecType.check: each field, if present,
must satisfy its schema. -/
def checkOpt (fields : List (String × Schema)) (entries : List (String × Value)) : Bool :=
  match fields with
  | [] => true
  | (k, s) :: rest =>
      (match dGet entries k with
       | some x => check s x
       | none => true) && checkOpt rest entries
termination_by (sizeOf fields, 0)

end

/-- A word character of the regular expression anchor (backslash-w
followed by a colon) that recognises absolute URIs; modelled for the
ASCII range. -/
def isWordChar (c : Char) : Bool :=
  c.isAlphanum || c = '_'

/-- A character of the shorthand type-name character class: hyphen,
dot, underscore, lowercase ASCII letter or digit. -/
def isClassChar (c : Char) : Bool :=
  c = '-' || c = '.' || c = '_' || (('a' ≤ c) && (c ≤ 'z')) || (('0' ≤ c) && (c ≤ '9'))

/-- re.match of one-or-more word characters followed by a colon at the
start of the string: the absolute-URI test of Factory.expand_uri. -/
def matchAbsolute (cs : List Char) : Bool :=
  match cs.dropWhile isWordChar with
  | ':' :: _ => !(cs.takeWhile isWordChar).isEmpty
  | _ => false

/-- The anchored shorthand grammar: slash, a possibly-empty prefix of
class characters, slash, a non-empty suffix of class characters.
Returns the prefix and suffix on a match. -/
def parseShorthand (cs : List Char) : Option (String × String) :=
  match cs with
  | '/' :: rest =>
    match rest.dropWhile (fun c => decide (c ≠ '/')) with
    | '/' :: suf =>
      if (rest.takeWhile (fun c => decide (c ≠ '/'))).all isClassChar &&
          suf.all isClassChar && !suf.isEmpty then
        some (String.mk (rest.takeWhile (fun c => decide (c ≠ '/'))), String.mk suf)
      else none
    | _ => none
  | _ => none

/-- The fourteen built-in core validator kinds, in registration
order. -/
inductive BuiltinKind where
  | allT | anyT | arrT | boolT | defT | failT | intT
  | mapT | nilT | numT | oneT | recT | seqT | strT
deriving DecidableEq

/-- The subname of each core kind (the suffix of its canonical URI). -/
def subname : BuiltinKind → String
  | .allT => "all"
  | .anyT => "any"
  | .arrT => "arr"
  | .boolT => "bool"
  | .defT => "def"
  | .failT => "fail"
  | .intT => "int"
  | .mapT => "map"
  | .nilT => "nil"
  | .numT => "num"
  | .oneT => "one"
  | .recT => "rec"
  | .seqT => "seq"
  | .strT => "str"

/-- An entry of the type registry: a built-in validator constructor or
a stored (learned) raw schema document. -/
inductive TypeEntry where
  | builtin (k : BuiltinKind)
  | learned (doc : Value)

/-- The factory state: the prefix registry (short prefix to URI base)
and the type registry (canonical URI to entry). -/
structure Factory where
  prefix_registry : List (String × String)
  type_registry : List (String × TypeEntry)

/-- The URI base of the core namespace. -/
def coreBase : String := "tag:codesimply.com,2008:rx/core/"

/-- The URI base of the meta namespace. -/
def metaBase : String := "tag:codesimply.com,2008:rx/meta/"

/-- Factory.expand_uri: an absolute URI is returned unchanged; a
shorthand name is split into prefix and suffix, the prefix is resolved
in the prefix registry, and the registered base is concatenated with
the suffix.  A name matching neither grammar is a ValueError, an
unregistered prefix a KeyError. -/
def expand_uri (f : Factory) (type_name : String) : Except RxError String :=
  if matchAbsolute type_name.toList then .ok type_name
  else
    match parseShorthand type_name.toList with
    | none => .error (.valueError "could not understand type name")
    | some (pfx, suf) =>
      match dGet f.prefix_registry pfx with
      | none => .error (.keyError "unknown prefix in type name")
      | some base => .ok (base ++ suf)

/-- Factory.add_prefix: the duplicate test is the Python truthiness of
prefix_registry.get(name), so a registered prefix whose base is the
empty string does not block re-registration; otherwise the name is
assigned (overwriting any falsy entry in place). -/
def add_prefix (f : Factory) (name base : String) : Except RxError Factory :=
  match dGet f.prefix_registry name with
  | some b =>
    if b ≠ "" then
      .error (.schemaError ("the prefix " ++ name ++ " is already registered"))
    else .ok { f with prefix_registry := dSet f.prefix_registry name base }
  | none => .ok { f with prefix_registry := dSet f.prefix_registry name base }

/-- Factory.register_type: fails when the kind's canonical URI is
already a key of the type registry (containment, not truthiness). -/
def register_type (f : Factory) (t : BuiltinKind) : Except RxError Factory :=
  if (dGet f.type_registry (coreBase ++ subname t)).isSome then
    .error (.valueError ("type already registered for " ++ coreBase ++ subname t))
  else
    .ok { f with type_registry := dSet f.type_registry (coreBase ++ subname t) (.builtin t) }

/-- Registration of a list of core kinds in order, as Factory.__init__
does for core_types. -/
def registerAll : Factory → List BuiltinKind → Except RxError Factory
  | f, [] => .ok f
  | f, t :: ts =>
    match register_type f t with
    | .error e => .error e
    | .ok f2 => registerAll f2 ts

/-- The core kinds in the order of the source's core_types list. -/
def coreTypeList : List BuiltinKind :=
  [.allT, .anyT, .arrT, .boolT, .defT, .failT, .intT,
   .mapT, .nilT, .numT, .oneT, .recT, .seqT, .strT]

/-- Factory.__init__ with register_core_types=True: the two seeded
prefixes and the fourteen core kinds. -/
def factoryNew : Except RxError Factory :=
  registerAll ⟨[("", coreBase), (".meta", metaBase)], []⟩ coreTypeList

/-- The factory produced by Factory.__init__ (see factoryNew_ok
below). -/
def Factory.default : Factory :=
  { prefix_registry := [("", coreBase), (".meta", metaBase)],
    type_registry :=
      [(coreBase ++ "all", .builtin .allT),
       (coreBase ++ "any", .builtin .anyT),
       (coreBase ++ "arr", .builtin .arrT),
       (coreBase ++ "bool", .builtin .boolT),
       (coreBase ++ "def", .builtin .defT),
       (coreBase ++ "fail", .builtin .failT),
       (coreBase ++ "int", .builtin .intT),
       (coreBase ++ "map", .builtin .mapT),
       (coreBase ++ "nil", .builtin .nilT),
       (coreBase ++ "num", .builtin .numT),
       (coreBase ++ "one", .builtin .oneT),
       (coreBase ++ "rec", .builtin .recT),
       (coreBase ++ "seq", .builtin .seqT),
       (coreBase ++ "str", .builtin .strT)] }

/-- A range parameter document must be a mapping; its entries are
handed to make_range_check. -/
def toRangeEntries : Value → Except RxError (List (String × Value))
  | .vdict es => .ok es
  | _ => .error (.typeError "range specification must be a mapping")

/-- Compiles each document of a list with the given compile callback
(the list comprehensions over schema of-lists and contents-lists). -/
def compileListF (g : Value → Except RxError Schema) :
    List Value → Except RxError (List Schema)
  | [] => .ok []
  | d :: ds => do
    let s ← g d
    let ss ← compileListF g ds
    .ok (s :: ss)

/-- The required/optional field loop of RecType.__init__: rejects a
field already known, adds it to the known set, and compiles its
schema; returns the grown known set with the compiled fields. -/
def recFieldsF (g : Value → Except RxError Schema) :
    List String → List (String × Value) →
    Except RxError (List String × List (String × Schema))
  | known, [] => .ok (known, [])
  | known, (k, d) :: rest =>
    if k ∈ known then
      .error (.schemaError (k ++ " appears in both required and optional"))
    else do
      let s ← g d
      let (known2, compiled) ← recFieldsF g (known ++ [k]) rest
      .ok (known2, (k, s) :: compiled)

/-- schema.get(which, curly-empty-dict).keys() for RecType: an absent
field dict is empty; a present one must be a mapping. -/
def fieldsDoc (entries : List (String × Value)) (which : String) :
    Except RxError (List (String × Value)) :=
  match dGet entries which with
  | none => .ok []
  | some (.vdict es) => .ok es
  | some _ => .error (.typeError "record fields must be a mapping")

/-- The value parameter of IntType.__init__: a Number with no
fractional remainder. -/
def intValueParam (entries : List (String × Value)) : Except RxError (Option ℚ) :=
  match dGet entries "value" with
  | none => .ok none
  | some vv =>
    match toNum vv with
    | none => .error (.schemaError "invalid value parameter for int")
    | some q =>
      if q.den = 1 then .ok (some q)
      else .error (.schemaError "invalid value parameter for int")

/-- The range parameter of IntType.__init__ (tested by presence). -/
def intRangeParam (entries : List (String × Value)) :
    Except RxError (Option RangeCheck) :=
  match dGet entries "range" with
  | none => .ok none
  | some rv => do
    let opt ← toRangeEntries rv
    let rc ← make_range_check opt
    .ok (some rc)

/-- The value parameter of NumType.__init__: any Number. -/
def numValueParam (entries : List (String × Value)) : Except RxError (Option ℚ) :=
  match dGet entries "value" with
  | none => .ok none
  | some vv =>
    match toNum vv with
    | none => .error (.schemaError "invalid value parameter for num")
    | some q => .ok (some q)

/-- The range parameter of NumType.__init__ (tested by truthiness). -/
def numRangeParam (entries : List (String × Value)) :
    Except RxError (Option RangeCheck) :=
  match dGet entries "range" with
  | none => .ok none
  | some rv =>
    if pyTruthy rv then do
      let opt ← toRangeEntries rv
      let rc ← make_range_check opt
      .ok (some rc)
    else .ok none

/-- _CoreType.__init__ for the parameterless kinds: only the type key
is permitted. -/
def mkBase (s : Schema) (entries : List (String × Value)) : Except RxError Schema :=
  if checkKeys ["type"] entries then .ok s
  else .error (.schemaError "unknown parameter for core type")

/-- AllType.__init__. -/
def mkAll (g : Value → Except RxError Schema) (entries : List (String × Value)) :
    Except RxError Schema :=
  if checkKeys ["type", "of"] entries then
    match dGet entries "of" with
    | some ov =>
      if pyTruthy ov then do
        let items ← pyIter ov
        let alts ← compileListF g items
        .ok (.allS alts)
      else .error (.schemaError "no alternatives given in all of")
    | none => .error (.schemaError "no alternatives given in all of")
  else .error (.schemaError "unknown parameter for all")

/-- AnyType.__init__: the of parameter is optional (tested by
presence) but may not be empty when present. -/
def mkAny (g : Value → Except RxError Schema) (entries : List (String × Value)) :
    Except RxError Schema :=
  if checkKeys ["type", "of"] entries then
    match dGet entries "of" with
    | some ov =>
      if pyTruthy ov then do
        let items ← pyIter ov
        let alts ← compileListF g items
        .ok (.anyS (some alts))
      else .error (.schemaError "no alternatives given in any of")
    | none => .ok (.anyS none)
  else .error (.schemaError "unknown parameter for any")

/-- ArrType.__init__: a required truthy contents schema and an
optional (truthiness-tested) length range. -/
def mkArr (g : Value → Except RxError Schema) (entries : List (String × Value)) :
    Except RxError Schema :=
  if checkKeys ["type", "contents", "length"] entries then
    match dGet entries "contents" with
    | some cv =>
      if pyTruthy cv then do
        let cs ← g cv
        match dGet entries "length" with
        | some lv =>
          if pyTruthy lv then do
            let opt ← toRangeEntries lv
            let rc ← make_range_check opt
            .ok (.arrS cs (some rc))
          else .ok (.arrS cs none)
        | none => .ok (.arrS cs none)
      else .error (.schemaError "no contents provided for arr")
    | none => .error (.schemaError "no contents provided for arr")
  else .error (.schemaError "unknown parameter for arr")

/-- IntType.__init__. -/
def mkInt (entries : List (String × Value)) : Except RxError Schema :=
  if checkKeys ["type", "range", "value"] entries then do
    let w ← intValueParam entries
    let r ← intRangeParam entries
    .ok (.intS r w)
  else .error (.schemaError "unknown parameter for int")

/-- MapType.__init__: a required truthy values schema. -/
def mkMap (g : Value → Except RxError Schema) (entries : List (String × Value)) :
    Except RxError Schema :=
  if checkKeys ["type", "values"] entries then
    match dGet entries "values" with
    | some vv =>
      if pyTruthy vv then do
        let vs ← g vv
        .ok (.mapS vs)
      else .error (.schemaError "no values given for map")
    | none => .error (.schemaError "no values given for map")
  else .error (.schemaError "unknown parameter for map")

/-- NumType.__init__. -/
def mkNum (entries : List (String × Value)) : Except RxError Schema :=
  if checkKeys ["type", "range", "value"] entries then do
    let w ← numValueParam entries
    let r ← numRangeParam entries
    .ok (.numS r w)
  else .error (.schemaError "unknown parameter for num")

/-- RecType.__init__: an optional (truthiness-tested) rest schema and
the required/optional field dicts, compiled in that order with a
shared known set. -/
def mkRec (g : Value → Except RxError Schema) (entries : List (String × Value)) :
    Except RxError Schema :=
  if checkKeys ["type", "rest", "required", "optional"] entries then do
    let rest ←
      match dGet entries "rest" with
      | some rv =>
        if pyTruthy rv then do
          let r ← g rv
          pure (some r)
        else pure (none : Option Schema)
      | none => pure (none : Option Schema)
    let reqDoc ← fieldsDoc entries "required"
    let (known1, req) ← recFieldsF g [] reqDoc
    let optDoc ← fieldsDoc entries "optional"
    let (_, opt) ← recFieldsF g known1 optDoc
    .ok (.recS req opt rest)
  else .error (.schemaError "unknown parameter for rec")

/-- SeqType.__init__: a required truthy contents list and an optional
(truthiness-tested) tail schema. -/
def mkSeq (g : Value → Except RxError Schema) (entries : List (String × Value)) :
    Except RxError Schema :=
  if checkKeys ["type", "contents", "tail"] entries then
    match dGet entries "contents" with
    | some cv =>
      if pyTruthy cv then do
        let items ← pyIter cv
        let cs ← compileListF g items
        let tl ←
          match dGet entries "tail" with
          | some tv =>
            if pyTruthy tv then do
              let t ← g tv
              pure (some t)
            else pure (none : Option Schema)
          | none => pure (none : Option Schema)
        .ok (.seqS cs tl)
      else .error (.schemaError "no contents provided for seq")
    | none => .error (.schemaError "no contents provided for seq")
  else .error (.schemaError "unknown parameter for seq")

/-- StrType.__init__: an optional fixed string value and an optional
(presence-tested) length range. -/
def mkStr (entries : List (String × Value)) : Except RxError Schema :=
  if checkKeys ["type", "value", "length"] entries then do
    let w ←
      match dGet entries "value" with
      | some (.vstr s) => pure (some s)
      | some _ => Except.error (.schemaError "invalid value parameter for str")
      | none => pure (none : Option String)
    let len ←
      match dGet entries "length" with
      | some lv => do
        let opt ← toRangeEntries lv
        let rc ← make_range_check opt
        pure (some rc)
      | none => pure (none : Option RangeCheck)
    .ok (.strS w len)
  else .error (.schemaError "unknown parameter for str")

/-- Dispatches a schema dict to the constructor of a built-in kind. -/
def mkBuiltin (g : Value → Except RxError Schema) :
    BuiltinKind → List (String × Value) → Except RxError Schema
  | .allT, entries => mkAll g entries
  | .anyT, entries => mkAny g entries
  | .arrT, entries => mkArr g entries
  | .boolT, entries => mkBase .boolS entries
  | .defT, entries => mkBase .defS entries
  | .failT, entries => mkBase .failS entries
  | .intT, entries => mkInt entries
  | .mapT, entries => mkMap g entries
  | .nilT, entries => mkBase .nilS entries
  | .numT, entries => mkNum entries
  | .oneT, entries => mkBase .oneS entries
  | .recT, entries => mkRec g entries
  | .seqT, entries => mkSeq g entries
  | .strT, entries => mkStr entries

/-- Factory.make_schema: a bare string is sugar for a dict with only a
type key; a non-dict is a SchemaError; the type name is expanded and
looked up; a learned entry permits only the type key and recompiles
the stored document; a built-in entry's constructor consumes the whole
dict.  Recursion through stored documents is not structurally bounded,
so the compiler takes fuel, decremented on every recursive compile. -/
def make_schema : Nat → Factory → Value → Except RxError Schema
  | 0 => fun _ _ => .error .fuelExhausted
  | fuel + 1 => fun f doc =>
    match (match doc with
           | .vstr s => Value.vdict [("type", .vstr s)]
           | d => d) with
    | .vdict entries =>
      match dGet entries "type" with
      | none => .error (.keyError "type")
      | some (.vstr tname) =>
        match expand_uri f tname with
        | .error e => .error e
        | .ok uri =>
          match dGet f.type_registry uri with
          | none => .error (.schemaError ("unknown type " ++ uri))
          | some (.learned stored) =>
            if checkKeys ["type"] entries then make_schema fuel f stored
            else .error (.schemaError "composed type does not take check arguments")
          | some (.builtin k) => mkBuiltin (make_schema fuel f) k entries
      | some _ => .error (.typeError "type name must be a string")
    | _ => .error (.schemaError "invalid schema argument to make schema")

/-- Factory.learn_type: fails when the URI is already registered
(truthiness of the registry entry, but every entry is truthy);
validates the document by compiling it, then stores the raw document
under the URI. -/
def learn_type (fuel : Nat) (f : Factory) (uri : String) (schema : Value) :
    Except RxError Factory :=
  match dGet f.type_registry uri with
  | some _ =>
    .error (.schemaError ("tried to learn type for already-registered uri " ++ uri))
  | none =>
    match make_schema fuel f schema with
    | .error e => .error e
    | .ok _ =>
      .ok { f with type_registry := dSet f.type_registry uri (.learned schema) }

/-- Util.make_range_check exactly as the source stores its state: only
the key names and the inclusive/exclusive conflicts are validated, and
the bound VALUES are captured uninspected (r = opt.copy()), whatever
their type.  getBound/RangeCheck above are the numeric-bounds
projection of this raw form (the fragment the documented range format
describes). -/
def make_range_check_raw (opt : List (String × Value)) :
    Except RxError (List (String × Value)) :=
  if checkKeys rangeKeys opt = false then
    .error (.valueError "illegal argument to make range check")
  else if (dGet opt "min").isSome && (dGet opt "min-ex").isSome then
    .error (.valueError "cannot define both exclusive and inclusive min")
  else if (dGet opt "max").isSome && (dGet opt "max-ex").isSome then
    .error (.valueError "cannot define both exclusive and inclusive max")
  else .ok opt

/-- A Python 3 order comparison between a stored raw bound and a
number: numeric bounds (booleans included) compare; any other stored
bound raises TypeError at comparison time. -/
def cmpBound (a : Value) (f : ℚ → Bool) : Except RxError Bool :=
  match toNum a with
  | some b => .ok (f b)
  | none => .error (.typeError "unorderable types in comparison")

/-- r.get(key, infinity-default) compared at check time: an absent
bound compares as the infinity default, never constrains and never
raises. -/
def testBound (r : List (String × Value)) (k : String) (f : ℚ → Bool) :
    Except RxError Bool :=
  match dGet r k with
  | none => .ok true
  | some a => cmpBound a f

/-- The check_range closure over the RAW captured bounds, with
Python's short-circuiting and: once one comparison is false the later
comparisons are not evaluated and cannot raise. -/
def check_range_raw (r : List (String × Value)) (value : ℚ) :
    Except RxError Bool := do
  let b1 ← testBound r "min" (fun m => decide (m ≤ value))
  if b1 = false then pure false
  else do
    let b2 ← testBound r "max" (fun m => decide (value ≤ m))
    if b2 = false then pure false
    else do
      let b3 ← testBound r "min-ex" (fun m => decide (m < value))
      if b3 = false then pure false
      else testBound r "max-ex" (fun m => decide (value < m))

/-- A compiled validator in raw form: identical to `Schema` except
that every compiled range check keeps the raw captured bound dict, as
the source's closures do.  `Schema` is the numeric-bounds fragment of
this type. -/
inductive SchemaR where
  | allR (alts : List SchemaR)
  | anyR (alts : Option (List SchemaR))
  | arrR (contents : SchemaR) (length : Option (List (String × Value)))
  | boolR
  | defR
  | failR
  | intR (range : Option (List (String × Value))) (value : Option ℚ)
  | mapR (values : SchemaR)
  | nilR
  | numR (range : Option (List (String × Value))) (value : Option ℚ)
  | oneR
  | recR (required : List (String × SchemaR)) (optional : List (String × SchemaR))
         (rest : Option SchemaR)
  | seqR (contents : List SchemaR) (tail : Option SchemaR)
  | strR (value : Option String) (length : Option (List (String × Value)))

/-- self.known for the raw rec validator. -/
def knownKeysR (req opt : List (String × SchemaR)) : List String :=
  req.map Prod.fst ++ opt.map Prod.fst

/-- Unknown keys of a checked mapping for the raw rec validator. -/
def unknownKeysR (req opt : List (String × SchemaR))
    (entries : List (String × Value)) : List String :=
  (entries.map Prod.fst).filter (fun k => !(decide (k ∈ knownKeysR req opt)))

/-- self.range is None or self.range(value), over raw bounds: the
comparison may raise. -/
def boundRangeE (o : Option (List (String × Value))) (q : ℚ) :
    Except RxError Bool :=
  match o with
  | none => .ok true
  | some r => check_range_raw r q

/-- self.value is None or value == self.value for the raw str
validator. -/
def strValMatch (w : Option String) (s : String) : Bool :=
  match w with
  | none => true
  | some fixed => decide (s = fixed)

mutual

/-- check(value) over raw-bound validators: the same per-kind
semantics as `check`, but with the exception channel of the Python
comparisons against raw stored bounds, and with Python's
short-circuit evaluation order preserved, so a raise happens exactly
when the corresponding comparison is reached. -/
def checkE (s : SchemaR) (v : Value) : Except RxError Bool :=
  match s with
  | .allR alts => checkListE alts v
  | .anyR alts =>
      match alts with
      | none => .ok true
      | some l => checkAnyE l v
  | .arrR cs len =>
      match v with
      | .varr items => do
          let b ← boundRangeE len ((items.length : ℚ))
          if b = false then pure false else checkItemsE cs items
      | _ => .ok false
  | .boolR => .ok (isVBool v)
  | .defR => .ok (!(isVNull v))
  | .failR => .ok false
  | .intR r w =>
      match toNum v with
      | none => .ok false
      | some q =>
        if !(isVBool v) && decide (q.den = 1) then do
          let b ← boundRangeE r q
          if b = false then pure false else pure (valMatch w q)
        else .ok false
  | .mapR vs =>
      match v with
      | .vdict entries => checkItemsE vs (entries.map Prod.snd)
      | _ => .ok false
  | .nilR => .ok (isVNull v)
  | .numR r w =>
      match toNum v with
      | none => .ok false
      | some q =>
        if !(isVBool v) then do
          let b ← boundRangeE r q
          if b = false then pure false else pure (valMatch w q)
        else .ok false
  | .oneR => .ok (isNumOrStr v)
  | .recR req opt rest =>
      match v with
      | .vdict entries =>
        if unknownKeysR req opt entries ≠ [] ∧ rest.isNone = true then .ok false
        else do
          let b1 ← checkReqE req entries
          if b1 = false then pure false
          else do
            let b2 ← checkOptE opt entries
            if b2 = false then pure false
            else
              if unknownKeysR req opt entries = [] then pure true
              else
                checkORestE rest (.vdict (restrict entries (unknownKeysR req opt entries)))
      | _ => .ok false
  | .seqR cs tl =>
      match v with
      | .varr items =>
        if items.length < cs.length then .ok false
        else do
          let b ← checkZipE cs items
          if b = false then pure false
          else
            if cs.length < items.length then
              checkORestE tl (.varr (items.drop cs.length))
            else pure true
      | _ => .ok false
  | .strR w len =>
      match v with
      | .vstr s =>
        if strValMatch w s = false then .ok false
        else boundRangeE len ((s.length : ℚ))
      | _ => .ok false
termination_by (sizeOf s, 0)

/-- An absent rest/tail schema fails an overlong/unknown remainder;
a present one checks it (the source guards this call so the None
branch is unreachable there). -/
def checkORestE (o : Option SchemaR) (v : Value) : Except RxError Bool :=
  match o with
  | none => pure false
  | some r => checkE r v
termination_by (sizeOf o, 0)

/-- all(...) over raw validators, with error propagation. -/
def checkListE (ss : List SchemaR) (v : Value) : Except RxError Bool :=
  match ss with
  | [] => .ok true
  | s :: rest => do
      let b ← checkE s v
      if b = false then pure false else checkListE rest v
termination_by (sizeOf ss, 0)

/-- any(...) over raw validators, with error propagation. -/
def checkAnyE (ss : List SchemaR) (v : Value) : Except RxError Bool :=
  match ss with
  | [] => .ok false
  | s :: rest => do
      let b ← checkE s v
      if b = true then pure true else checkAnyE rest v
termination_by (sizeOf ss, 0)

/-- Every item against the same raw schema, with error propagation. -/
def checkItemsE (cs : SchemaR) (items : List Value) : Except RxError Bool :=
  match items with
  | [] => .ok true
  | x :: xs => do
      let b ← checkE cs x
      if b = false then pure false else checkItemsE cs xs
termination_by (sizeOf cs, items.length + 1)

/-- The positional seq loop over raw schemas, with error
propagation. -/
def checkZipE (ss : List SchemaR) (xs : List Value) : Except RxError Bool :=
  match ss, xs with
  | [], _ => .ok true
  | _ :: _, [] => .ok false
  | s :: ss, x :: xs => do
      let b ← checkE s x
      if b = false then pure false else checkZipE ss xs
termination_by (sizeOf ss, 0)

/-- The required-field loop over raw schemas, with error
propagation. -/
def checkReqE (fields : List (String × SchemaR)) (entries : List (String × Value)) :
    Except RxError Bool :=
  match fields with
  | [] => .ok true
  | (k, s) :: rest =>
      match dGet entries k with
      | none => .ok false
      | some x => do
          let b ← checkE s x
          if b = false then pure false else checkReqE rest entries
termination_by (sizeOf fields, 0)

/-- The optional-field loop over raw schemas, with error
propagation. -/
def checkOptE (fields : List (String × SchemaR)) (entries : List (String × Value)) :
    Except RxError Bool :=
  match fields with
  | [] => .ok true
  | (k, s) :: rest =>
      match dGet entries k with
      | none => checkOptE rest entries
      | some x => do
          let b ← checkE s x
          if b = false then pure false else checkOptE rest entries
termination_by (sizeOf fields, 0)

end

/-- Every bound value of a raw captured range dict is numeric (the
documented range format). -/
def rangeNumericB (r : List (String × Value)) : Bool :=
  r.all (fun p => (toNum p.2).isSome)

/-- Numeric-bounds condition for an optional raw range. -/
def rangeOptNumeric (o : Option (List (String × Value))) : Bool :=
  match o with
  | none => true
  | some r => rangeNumericB r

mutual

/-- Every raw range captured anywhere inside a compiled validator has
only numeric bounds: the restriction under which the raw check is
total. -/
def ratBounds (s : SchemaR) : Bool :=
  match s with
  | .allR alts => ratBoundsList alts
  | .anyR alts => ratBoundsOList alts
  | .arrR cs len => rangeOptNumeric len && ratBounds cs
  | .boolR => true
  | .defR => true
  | .failR => true
  | .intR r _w => rangeOptNumeric r
  | .mapR vs => ratBounds vs
  | .nilR => true
  | .numR r _w => rangeOptNumeric r
  | .oneR => true
  | .recR req opt rest =>
      ratBoundsFields req && ratBoundsFields opt && ratBoundsORest rest
  | .seqR cs tl => ratBoundsList cs && ratBoundsORest tl
  | .strR _w len => rangeOptNumeric len
termination_by (sizeOf s, 0)

/-- Numeric-bounds condition for an optional raw schema. -/
def ratBoundsORest (o : Option SchemaR) : Bool :=
  match o with
  | none => true
  | some r => ratBounds r
termination_by (sizeOf o, 0)

/-- Numeric-bounds condition for an optional list of raw schemas. -/
def ratBoundsOList (o : Option (List SchemaR)) : Bool :=
  match o with
  | none => true
  | some l => ratBoundsList l
termination_by (sizeOf o, 0)

/-- Numeric-bounds condition for a list of raw schemas. -/
def ratBoundsList (ss : List SchemaR) : Bool :=
  match ss with
  | [] => true
  | s :: rest => ratBounds s && ratBoundsList rest
termination_by (sizeOf ss, 0)

/-- Numeric-bounds condition for raw record fields. -/
def ratBoundsFields (fields : List (String × SchemaR)) : Bool :=
  match fields with
  | [] => true
  | (_, s) :: rest => ratBounds s && ratBoundsFields rest
termination_by (sizeOf fields, 0)

end

/-- IntType.__init__ in raw form: identical to mkInt except that the
range parameter is compiled by the source's make_range_check, which
stores the bound values uninspected. -/
def mkIntRaw (entries : List (String × Value)) : Except RxError SchemaR :=
  if checkKeys ["type", "range", "value"] entries then do
    let w ← intValueParam entries
    let r ←
      match dGet entries "range" with
      | none => pure (none : Option (List (String × Value)))
      | some rv => do
        let opt ← toRangeEntries rv
        let rr ← make_range_check_raw opt
        pure (some rr)
    .ok (.intR r w)
  else .error (.schemaError "unknown parameter for int")

/-- Sanity: Factory.__init__ succeeds and produces the default
factory. -/
theorem factoryNew_ok : factoryNew = .ok Factory.default := rfl

/-- A successful dict lookup comes from an entry of the list. -/
theorem dGet_mem {α : Type} (l : List (String × α)) (k : String) (v : α)
    (h : dGet l k = some v) : (k, v) ∈ l := by
  induction l with
  | nil => simp [dGet] at h
  | cons p rest ih =>
    obtain ⟨k0, v0⟩ := p
    by_cases hk : k0 = k
    · subst hk
      simp [dGet] at h
      simp [h]
    · simp [dGet, hk] at h
      exact List.mem_cons_of_mem _ (ih h)

/-- An optional bound holds exactly when every present bound value
satisfies the test. -/
theorem boundB_true_iff (o : Option ℚ) (f : ℚ → Bool) :
    boundB o f = true ↔ ∀ q, o = some q → f q = true := by
  cases o <;> simp [boundB]

/-- The required-field loop succeeds exactly when every required field
is present and satisfies its schema. -/
theorem checkReq_iff (fields : List (String × Schema)) (entries : List (String × Value)) :
    checkReq fields entries = true ↔
      ∀ p ∈ fields, ∃ x, dGet entries p.1 = some x ∧ check p.2 x = true := by
  induction fields with
  | nil => simp [checkReq]
  | cons p rest ih =>
    obtain ⟨k, s⟩ := p
    rw [checkReq]
    rcases h : dGet entries k with _ | x <;>
      simp [h, ih, List.forall_mem_cons]

/-- The optional-field loop succeeds exactly when every optional field
that is present satisfies its schema. -/
theorem checkOpt_iff (fields : List (String × Schema)) (entries : List (String × Value)) :
    checkOpt fields entries = true ↔
      ∀ p ∈ fields, ∀ x, dGet entries p.1 = some x → check p.2 x = true := by
  induction fields with
  | nil => simp [checkOpt]
  | cons p rest ih =>
    obtain ⟨k, s⟩ := p
    rw [checkOpt]
    rcases h : dGet entries k with _ | x <;>
      simp [h, ih, List.forall_mem_cons]

/-- The positional loop of the seq check succeeds exactly when the
value is long enough and every position satisfies its schema. -/
theorem checkZip_iff (ss : List Schema) (xs : List Value) :
    checkZip ss xs = true ↔
      ss.length ≤ xs.length ∧
        ∀ i (hs : i < ss.length) (hx : i < xs.length),
          check (ss.get ⟨i, hs⟩) (xs.get ⟨i, hx⟩) = true := by
  induction ss generalizing xs with
  | nil => simp [checkZip]
  | cons s ss ih =>
    cases xs with
    | nil => simp [checkZip]
    | cons x xs =>
      rw [checkZip]
      simp only [Bool.and_eq_true, ih, List.length_cons, Nat.succ_le_succ_iff]
      constructor
      · rintro ⟨h1, h2, h3⟩
        refine ⟨h2, ?_⟩
        intro i hs hx
        cases i with
        | zero => exact h1
        | succ j =>
          exact h3 j (Nat.lt_of_succ_lt_succ hs) (Nat.lt_of_succ_lt_succ hx)
      · rintro ⟨hl, h⟩
        refine ⟨h 0 (Nat.succ_pos _) (Nat.succ_pos _), hl, ?_⟩
        intro j hs hx
        exact h (j + 1) (Nat.succ_lt_succ hs) (Nat.succ_lt_succ hx)

/-- A rational has denominator one exactly when it is an integer. -/
theorem den_one_iff_int (q : ℚ) : q.den = 1 ↔ ∃ n : ℤ, q = (n : ℚ) := by
  constructor
  · intro h
    exact ⟨q.num, by rw [(Rat.den_eq_one_iff q).mp h]⟩
  · rintro ⟨n, rfl⟩
    exact Rat.den_intCast n

/-- C3 counterexample: the claim says the type name /str (read as
empty prefix with suffix str) resolves successfully, but the shorthand
grammar demands a second slash (slash, prefix, slash, suffix), so on
the default factory (whose empty prefix is registered with the core
base) /str is a syntax error, not a successful resolution. -/
theorem spec_c3_counterexample :
    dGet Factory.default.prefix_registry "" = some coreBase ∧
    expand_uri Factory.default "/str" =
      .error (.valueError "could not understand type name") :=
  ⟨rfl, rfl⟩

/-- C3 amended: the empty-prefix shorthand for the core str type is
written //str (slash, empty prefix, slash, suffix str); resolving it
succeeds for any factory whose prefix registry maps the empty prefix
to some base, and yields that base concatenated with str.  The
single-slash form /str matches neither the absolute-URI pattern nor
the shorthand grammar and raises a syntax error. -/
theorem spec_c3_expand_core_str (f : Factory) (base : String)
    (h : dGet f.prefix_registry "" = some base) :
    expand_uri f "//str" = .ok (base ++ "str") ∧
    expand_uri f "/str" = .error (.valueError "could not understand type name") := by
  have ha : matchAbsolute ['/', '/', 's', 't', 'r'] = false := rfl
  have hp : parseShorthand ['/', '/', 's', 't', 'r'] = some ("", "str") := rfl
  have ha1 : matchAbsolute ['/', 's', 't', 'r'] = false := rfl
  have hp1 : parseShorthand ['/', 's', 't', 'r'] = none := rfl
  constructor
  · rw [expand_uri]
    simp [ha, hp, h]
  · rw [expand_uri]
    simp [ha1, hp1]

/-- Witness for C3's amended theorem: on the default factory the empty
prefix is registered with the core base, and //str resolves to the
core str URI while /str raises. -/
theorem spec_c3_witness :
    expand_uri Factory.default "//str" = .ok (coreBase ++ "str") ∧
    expand_uri Factory.default "/str" =
      .error (.valueError "could not understand type name") :=
  spec_c3_expand_core_str Factory.default coreBase rfl

/-- C4 counterexample: the claim says a second add_prefix for an
already-present name always fails and leaves the entry unchanged.  But
the duplicate test is Python truthiness of the stored base, so after
registering prefix x with the empty base (itself accepted by
add_prefix), a second registration of x succeeds and overwrites the
entry. -/
theorem spec_c4_counterexample :
    dGet [("", coreBase), (".meta", metaBase), ("x", "")] "x" = some "" ∧
    add_prefix (Factory.mk [("", coreBase), (".meta", metaBase)] []) "x" "" =
      .ok (Factory.mk [("", coreBase), (".meta", metaBase), ("x", "")] []) ∧
    add_prefix (Factory.mk [("", coreBase), (".meta", metaBase), ("x", "")] [])
        "x" "tag:example.com,2025:ns/" =
      .ok (Factory.mk
        [("", coreBase), (".meta", metaBase), ("x", "tag:example.com,2025:ns/")] []) :=
  ⟨rfl, rfl, rfl⟩

/-- C4 amended: for every registry state and every prefix name present
in the prefix registry with a non-empty (truthy) base string, a second
add_prefix with that name fails with a duplicate-registration
SchemaError (so no registry state is produced and the original entry
remains in effect); a name stored with the empty base is instead
silently overwritten. -/
theorem spec_c4_amended (f : Factory) (name base b : String)
    (hpresent : dGet f.prefix_registry name = some b) (hb : b ≠ "") :
    add_prefix f name base =
      .error (.schemaError ("the prefix " ++ name ++ " is already registered")) := by
  rw [ add_prefix, hpresent]
  simp [hb]

/-- Witness for C4's amended theorem: re-registering the seeded .meta
prefix fails with the duplicate-registration error. -/
theorem spec_c4_witness :
    add_prefix Factory.default ".meta" "tag:example.com,2025:other/" =
      .error (.schemaError ("the prefix " ++ ".meta" ++ " is already registered")) :=
  spec_c4_amended Factory.default ".meta" "tag:example.com,2025:other/" metaBase rfl
    (by decide)

/-- C5: for an unregistered URI, learn_type raises exactly when
compiling the document raises (propagating the compile-time error, the
registry unchanged since no new factory state is produced), and when
the document compiles it stores the raw uncompiled document under the
URI. -/
theorem spec_c5_learn_type (fuel : Nat) (f : Factory) (uri : String) (doc : Value)
    (hfree : dGet f.type_registry uri = none) :
    (∀ e, make_schema fuel f doc = .error e → learn_type fuel f uri doc = .error e) ∧
    (∀ s, make_schema fuel f doc = .ok s →
      learn_type fuel f uri doc =
        .ok { f with type_registry := dSet f.type_registry uri (.learned doc) }) := by
  constructor
  · intro e he
    rw [learn_type, hfree, he]
  · intro s hs
    rw [learn_type, hfree, hs]

/-- Witness for C5: on the default factory, learning a type from a
document that references an unknown type fails with the compile-time
unknown-type error, while learning from the valid document //str stores
the raw document. -/
theorem spec_c5_witness :
    learn_type 3 Factory.default "tag:example.com,2025:mytype"
        (.vstr "tag:example.com,2025:missing") =
      .error (.schemaError ("unknown type " ++ "tag:example.com,2025:missing")) ∧
    learn_type 3 Factory.default "tag:example.com,2025:mytype" (.vstr "//str") =
      .ok { Factory.default with
              type_registry :=
                dSet Factory.default.type_registry "tag:example.com,2025:mytype"
                  (.learned (.vstr "//str")) } :=
  ⟨(spec_c5_learn_type 3 Factory.default "tag:example.com,2025:mytype"
      (.vstr "tag:example.com,2025:missing") rfl).1 _ rfl,
   (spec_c5_learn_type 3 Factory.default "tag:example.com,2025:mytype"
      (.vstr "//str") rfl).2 (.strS none none) rfl⟩

/-- An optional compiled range constrains exactly when every present
range state accepts the value. -/
theorem boundRange_iff (o : Option RangeCheck) (q : ℚ) :
    boundRange o q = true ↔ ∀ rc, o = some rc → check_range rc q = true := by
  cases o <;> simp [boundRange]

/-- An optional fixed value constrains exactly when every present
fixed value equals the checked number. -/
theorem valMatch_iff (w : Option ℚ) (q : ℚ) :
    valMatch w q = true ↔ ∀ x, w = some x → q = x := by
  cases w <;> simp [valMatch]

/-- C6: for every bounds specification whose keys lie in
min/max/min-ex/max-ex, whose bound values are numeric, and which pairs
no inclusive bound with the exclusive bound of the same side,
make_range_check succeeds and the produced predicate holds exactly
when the value is at least every present min, at most every present
max, strictly above every present min-ex and strictly below every
present max-ex (absent bounds never constrain). -/
theorem spec_c6_make_range_check (opt : List (String × Value))
    (hkeys : checkKeys rangeKeys opt = true)
    (hnum : ∀ p ∈ opt, (toNum p.2).isSome = true)
    (hmin : ¬((dGet opt "min").isSome = true ∧ (dGet opt "min-ex").isSome = true))
    (hmax : ¬((dGet opt "max").isSome = true ∧ (dGet opt "max-ex").isSome = true)) :
    ∃ rc, make_range_check opt = .ok rc ∧
      ∀ x : ℚ, check_range rc x = true ↔
        ((∀ q, (dGet opt "min").bind toNum = some q → q ≤ x) ∧
         (∀ q, (dGet opt "max").bind toNum = some q → x ≤ q) ∧
         (∀ q, (dGet opt "min-ex").bind toNum = some q → q < x) ∧
         (∀ q, (dGet opt "max-ex").bind toNum = some q → x < q)) := by
  have hub : ∀ k, getBound opt k = .ok ((dGet opt k).bind toNum) := by
    intro k
    rcases h : dGet opt k with _ | v
    · simp [getBound, h]
    · have hm := hnum (k, v) (dGet_mem _ _ _ h)
      rcases ht : toNum v with _ | q
      · rw [ht] at hm
        simp at hm
      · simp [getBound, h, ht]
  have e1 : ((dGet opt "min").isSome && (dGet opt "min-ex").isSome) = false := by
    cases hA : (dGet opt "min").isSome <;> cases hB : (dGet opt "min-ex").isSome <;>
      simp_all
  have e2 : ((dGet opt "max").isSome && (dGet opt "max-ex").isSome) = false := by
    cases hA : (dGet opt "max").isSome <;> cases hB : (dGet opt "max-ex").isSome <;>
      simp_all
  refine ⟨⟨(dGet opt "min").bind toNum, (dGet opt "max").bind toNum,
          (dGet opt "min-ex").bind toNum, (dGet opt "max-ex").bind toNum⟩, ?_, ?_⟩
  · rw [make_range_check]
    simp [hkeys, e1, e2, hub, Bind.bind, Except.bind]
  · intro x
    simp [check_range, Bool.and_eq_true, boundB_true_iff, and_assoc]

/-- Witness for C6: the specification with min 0 and max 10 compiles
and its predicate is the conjunction of the two bounds. -/
theorem spec_c6_witness :
    ∃ rc, make_range_check [("min", .vnum 0), ("max", .vnum 10)] = .ok rc ∧
      ∀ x : ℚ, check_range rc x = true ↔
        ((∀ q, (dGet [("min", Value.vnum 0), ("max", Value.vnum 10)] "min").bind toNum =
            some q → q ≤ x) ∧
         (∀ q, (dGet [("min", Value.vnum 0), ("max", Value.vnum 10)] "max").bind toNum =
            some q → x ≤ q) ∧
         (∀ q, (dGet [("min", Value.vnum 0), ("max", Value.vnum 10)] "min-ex").bind toNum =
            some q → q < x) ∧
         (∀ q, (dGet [("min", Value.vnum 0), ("max", Value.vnum 10)] "max-ex").bind toNum =
            some q → x < q)) :=
  spec_c6_make_range_check [("min", .vnum 0), ("max", .vnum 10)]
    (by decide) (by decide) (by decide) (by decide)

/-- C8: the int check accepts exactly the numeric, non-boolean,
mathematically integral values that satisfy the optional range and
equal the optional fixed value; in particular 3.5 fails int, and the
boolean true fails both int and num despite equalling 1 numerically. -/
theorem spec_c8_int_semantics :
    (∀ (r : Option RangeCheck) (w : Option ℚ) (v : Value),
      check (.intS r w) v = true ↔
        ∃ q, toNum v = some q ∧ isVBool v = false ∧ (∃ n : ℤ, q = (n : ℚ)) ∧
          (∀ rc, r = some rc → check_range rc q = true) ∧
          (∀ x, w = some x → q = x)) ∧
    check (.intS none none) (.vnum (7 / 2)) = false ∧
    (∀ (r : Option RangeCheck) (w : Option ℚ),
      check (.intS r w) (.vbool true) = false ∧
      check (.numS r w) (.vbool true) = false) := by
  refine ⟨?_, ?_, ?_⟩
  · intro r w v
    rw [check]
    rcases hv : toNum v with _ | q
    · simp
    · simp [Bool.and_eq_true, boundRange_iff, valMatch_iff, den_one_iff_int,
            and_assoc]
  · have h75 : (7 / 2 : ℚ) = Rat.mk' 7 2 (by norm_num) (by norm_num) := by
      rw [← Rat.num_div_den (Rat.mk' 7 2 (by norm_num) (by norm_num))]
      norm_num
    have hden : (7 / 2 : ℚ).den = 2 := by rw [h75]
    rw [check]
    simp [toNum, hden]
  · intro r w
    constructor
    · rw [check]
      simp [toNum, isVBool]
    · rw [check]
      simp [toNum, isVBool]

/-- Witness for C8: the integer 3 passes a bare int validator, by the
characterisation. -/
theorem spec_c8_witness : check (.intS none none) (.vnum 3) = true :=
  (spec_c8_int_semantics.1 none none (.vnum 3)).mpr
    ⟨3, rfl, rfl, ⟨3, by norm_num⟩, by simp, by simp⟩

/-- C9: an all validator over two schemas accepts exactly the values
both sub-validators accept, and an any validator with no of parameter
accepts every value. -/
theorem spec_c9_all_any (s1 s2 : Schema) (v : Value) :
    check (.allS [s1, s2]) v = (check s1 v && check s2 v) ∧
    check (.anyS none) v = true := by
  constructor
  · rw [check, checkList, checkList, checkList]
    simp
  · rw [check]

/-- Witness for C9: instantiated at the bool validator and a boolean
value. -/
theorem spec_c9_witness :
    check (.allS [.boolS, .boolS]) (.vbool true) =
      (check .boolS (.vbool true) && check .boolS (.vbool true)) :=
  (spec_c9_all_any .boolS .boolS (.vbool true)).1

/-- C10: every boolean passes the one validator (booleans are Numbers
in Python), although the same booleans are rejected by every int and
every num validator. -/
theorem spec_c10_one_accepts_bool (b : Bool) :
    check .oneS (.vbool b) = true ∧
    (∀ (r : Option RangeCheck) (w : Option ℚ),
      check (.intS r w) (.vbool b) = false) ∧
    (∀ (r : Option RangeCheck) (w : Option ℚ),
      check (.numS r w) (.vbool b) = false) := by
  refine ⟨?_, ?_, ?_⟩
  · rw [check]
    simp [isNumOrStr, toNum]
  · intro r w
    rw [check]
    simp [toNum, isVBool]
  · intro r w
    rw [check]
    simp [toNum, isVBool]

/-- Witness for C10: the boolean true passes the one validator. -/
theorem spec_c10_witness : check .oneS (.vbool true) = true :=
  (spec_c10_one_accepts_bool true).1

/-- C2: the rec check accepts exactly the key-value mappings in which
the unknown keys (keys outside required and optional) are empty or a
rest schema was given, every required field is present and satisfies
its schema, every present optional field satisfies its schema, and — 
when unknown keys exist — the sub-mapping restricted to them satisfies
the rest schema. -/
theorem spec_c2_rec_semantics (req opt : List (String × Schema))
    (rest : Option Schema) (v : Value) :
    check (.recS req opt rest) v = true ↔
      ∃ entries, v = .vdict entries ∧
        (unknownKeys req opt entries = [] ∨ rest ≠ none) ∧
        (∀ p ∈ req, ∃ x, dGet entries p.1 = some x ∧ check p.2 x = true) ∧
        (∀ p ∈ opt, ∀ x, dGet entries p.1 = some x → check p.2 x = true) ∧
        (unknownKeys req opt entries ≠ [] →
          ∃ r, rest = some r ∧
            check r (.vdict (restrict entries (unknownKeys req opt entries))) = true) := by
  cases v with
  | vdict entries =>
    rw [check.eq_def]
    by_cases hu : unknownKeys req opt entries = []
    · cases rest with
      | none => simp [hu, checkReq_iff, checkOpt_iff, and_assoc]
      | some r => simp [hu, checkReq_iff, checkOpt_iff, and_assoc]
    · cases rest with
      | none => simp [hu]
      | some r => simp [hu, checkReq_iff, checkOpt_iff, and_assoc]
  | vnull => simp [check]
  | vbool b => simp [check]
  | vnum q => simp [check]
  | vstr s => simp [check]
  | varr items => simp [check]

/-- Witness for C2: the empty record schema accepts the empty mapping,
by the characterisation. -/
theorem spec_c2_witness : check (.recS [] [] none) (.vdict []) = true :=
  (spec_c2_rec_semantics [] [] none (.vdict [])).mpr
    ⟨[], rfl, Or.inl rfl, by simp, by simp, by simp [unknownKeys]⟩

/-- C7: the seq check accepts exactly the ordered sequences at least
as long as the contents list whose i-th element satisfies the i-th
contents schema for every position of the contents list, and whose
remainder — when the sequence is strictly longer — satisfies a given
tail schema. -/
theorem spec_c7_seq_semantics (cs : List Schema) (tl : Option Schema) (v : Value) :
    check (.seqS cs tl) v = true ↔
      ∃ xs, v = .varr xs ∧ cs.length ≤ xs.length ∧
        (∀ i (hs : i < cs.length) (hx : i < xs.length),
          check (cs.get ⟨i, hs⟩) (xs.get ⟨i, hx⟩) = true) ∧
        (cs.length < xs.length →
          ∃ t, tl = some t ∧ check t (.varr (xs.drop cs.length)) = true) := by
  cases v with
  | varr items =>
    rw [check.eq_def]
    by_cases hl : items.length < cs.length
    · have hnle : ¬ (cs.length ≤ items.length) := by omega
      simp [hl, hnle]
    · have hle : cs.length ≤ items.length := by omega
      by_cases h2 : cs.length < items.length
      · cases tl with
        | none => simp [hl, h2, checkZip_iff]
        | some t => simp [hl, h2, hle, checkZip_iff, and_assoc]
      · cases tl with
        | none =>
          simp [hl, h2, hle, checkZip_iff]
          intro _
          omega
        | some t => simp [hl, h2, hle, checkZip_iff]
  | vnull => simp [check]
  | vbool b => simp [check]
  | vnum q => simp [check]
  | vstr s => simp [check]
  | vdict entries => simp [check]

/-- Witness for C7: the empty seq schema accepts the empty sequence,
by the characterisation. -/
theorem spec_c7_witness : check (.seqS [] none) (.varr []) = true :=
  (spec_c7_seq_semantics [] none (.varr [])).mpr
    ⟨[], rfl, Nat.le_refl 0, by simp, by simp⟩

/-- Bind of a successful Except computation. -/
theorem exbind_ok {α β : Type} (a : α) (f : α → Except RxError β) :
    (Except.ok a >>= f) = f a := rfl

/-- Bind of a failed Except computation propagates the error. -/
theorem exbind_err {α β : Type} (e : RxError) (f : α → Except RxError β) :
    ((Except.error e : Except RxError α) >>= f) = .error e := rfl

/-- pure in the Except monad is ok. -/
theorem expure {α : Type} (a : α) : (pure a : Except RxError α) = .ok a := rfl

/-- A bound test over a numeric raw range never raises. -/
theorem testBound_ok (r : List (String × Value)) (k : String) (f : ℚ → Bool)
    (h : rangeNumericB r = true) : ∃ b, testBound r k f = .ok b := by
  rcases hg : dGet r k with _ | a
  · exact ⟨true, by simp [testBound, hg]⟩
  · have hmem := dGet_mem r k a hg
    rw [rangeNumericB, List.all_eq_true] at h
    have hm := h _ hmem
    rcases hq : toNum a with _ | q
    · rw [hq] at hm
      simp at hm
    · exact ⟨f q, by simp [testBound, hg, cmpBound, hq]⟩

/-- check_range over a numeric raw range never raises. -/
theorem check_range_raw_ok (r : List (String × Value)) (q : ℚ)
    (h : rangeNumericB r = true) : ∃ b, check_range_raw r q = .ok b := by
  obtain ⟨b1, e1⟩ := testBound_ok r "min" (fun m => decide (m ≤ q)) h
  obtain ⟨b2, e2⟩ := testBound_ok r "max" (fun m => decide (q ≤ m)) h
  obtain ⟨b3, e3⟩ := testBound_ok r "min-ex" (fun m => decide (m < q)) h
  obtain ⟨b4, e4⟩ := testBound_ok r "max-ex" (fun m => decide (q < m)) h
  rw [check_range_raw]
  simp only [e1, e2, e3, e4, exbind_ok]
  cases b1 <;> cases b2 <;> cases b3 <;> cases b4 <;> exact ⟨_, rfl⟩

/-- An optional numeric raw range never raises. -/
theorem boundRangeE_ok (o : Option (List (String × Value))) (q : ℚ)
    (h : rangeOptNumeric o = true) : ∃ b, boundRangeE o q = .ok b := by
  cases o with
  | none => exact ⟨true, rfl⟩
  | some r => exact check_range_raw_ok r q h

/-- Totality of the raw all-loop, given totality below the size
bound. -/
theorem checkListE_total (N : ℕ)
    (IH : ∀ s : SchemaR, sizeOf s < N → ∀ v, ratBounds s = true →
      ∃ b, checkE s v = .ok b)
    (l : List SchemaR) (hl : sizeOf l ≤ N) (hb : ratBoundsList l = true) (v : Value) :
    ∃ b, checkListE l v = .ok b := by
  induction l with
  | nil => exact ⟨true, by rw [checkListE]⟩
  | cons s rest ih =>
    rw [ratBoundsList, Bool.and_eq_true] at hb
    have hsz : sizeOf (s :: rest) = 1 + sizeOf s + sizeOf rest := by
      simp only [List.cons.sizeOf_spec]
    obtain ⟨b1, e1⟩ := IH s (by omega) v hb.1
    obtain ⟨b2, e2⟩ := ih (by omega) hb.2
    rw [checkListE, e1]
    cases b1
    · exact ⟨false, rfl⟩
    · exact ⟨b2, e2⟩

/-- Totality of the raw any-loop, given totality below the size
bound. -/
theorem checkAnyE_total (N : ℕ)
    (IH : ∀ s : SchemaR, sizeOf s < N → ∀ v, ratBounds s = true →
      ∃ b, checkE s v = .ok b)
    (l : List SchemaR) (hl : sizeOf l ≤ N) (hb : ratBoundsList l = true) (v : Value) :
    ∃ b, checkAnyE l v = .ok b := by
  induction l with
  | nil => exact ⟨false, by rw [checkAnyE]⟩
  | cons s rest ih =>
    rw [ratBoundsList, Bool.and_eq_true] at hb
    have hsz : sizeOf (s :: rest) = 1 + sizeOf s + sizeOf rest := by
      simp only [List.cons.sizeOf_spec]
    obtain ⟨b1, e1⟩ := IH s (by omega) v hb.1
    obtain ⟨b2, e2⟩ := ih (by omega) hb.2
    rw [checkAnyE, e1]
    cases b1
    · exact ⟨b2, e2⟩
    · exact ⟨true, rfl⟩

/-- Totality of the raw per-item loop, given totality below the size
bound. -/
theorem checkItemsE_total (N : ℕ)
    (IH : ∀ s : SchemaR, sizeOf s < N → ∀ v, ratBounds s = true →
      ∃ b, checkE s v = .ok b)
    (cs : SchemaR) (hcs : sizeOf cs < N) (hb : ratBounds cs = true)
    (items : List Value) :
    ∃ b, checkItemsE cs items = .ok b := by
  induction items with
  | nil => exact ⟨true, by rw [checkItemsE]⟩
  | cons x xs ih =>
    obtain ⟨b1, e1⟩ := IH cs hcs x hb
    obtain ⟨b2, e2⟩ := ih
    rw [checkItemsE, e1]
    cases b1
    · exact ⟨false, rfl⟩
    · exact ⟨b2, e2⟩

/-- Totality of the raw positional loop, given totality below the
size bound. -/
theorem checkZipE_total (N : ℕ)
    (IH : ∀ s : SchemaR, sizeOf s < N → ∀ v, ratBounds s = true →
      ∃ b, checkE s v = .ok b)
    (ss : List SchemaR) (hs : sizeOf ss ≤ N) (hb : ratBoundsList ss = true)
    (xs : List Value) :
    ∃ b, checkZipE ss xs = .ok b := by
  induction ss generalizing xs with
  | nil => exact ⟨true, by rw [checkZipE]⟩
  | cons s rest ih =>
    cases xs with
    | nil => exact ⟨false, by rw [checkZipE]⟩
    | cons x xs =>
      rw [ratBoundsList, Bool.and_eq_true] at hb
      have hsz : sizeOf (s :: rest) = 1 + sizeOf s + sizeOf rest := by
        simp only [List.cons.sizeOf_spec]
      obtain ⟨b1, e1⟩ := IH s (by omega) x hb.1
      obtain ⟨b2, e2⟩ := ih (by omega) hb.2 xs
      rw [checkZipE, e1]
      cases b1
      · exact ⟨false, rfl⟩
      · exact ⟨b2, e2⟩

/-- Totality of the raw required-field loop, given totality below the
size bound. -/
theorem checkReqE_total (N : ℕ)
    (IH : ∀ s : SchemaR, sizeOf s < N → ∀ v, ratBounds s = true →
      ∃ b, checkE s v = .ok b)
    (fields : List (String × SchemaR)) (hf : sizeOf fields ≤ N)
    (hb : ratBoundsFields fields = true) (entries : List (String × Value)) :
    ∃ b, checkReqE fields entries = .ok b := by
  induction fields with
  | nil => exact ⟨true, by rw [checkReqE]⟩
  | cons p rest ih =>
    obtain ⟨k, s⟩ := p
    rw [ratBoundsFields, Bool.and_eq_true] at hb
    have hsz : sizeOf ((k, s) :: rest) = 1 + (1 + sizeOf k + sizeOf s) + sizeOf rest := by
      simp only [List.cons.sizeOf_spec, Prod.mk.sizeOf_spec]
    rcases hg : dGet entries k with _ | x
    · exact ⟨false, by rw [checkReqE, hg]⟩
    · obtain ⟨b1, e1⟩ := IH s (by omega) x hb.1
      obtain ⟨b2, e2⟩ := ih (by omega) hb.2
      rw [checkReqE, hg]
      simp only [e1, exbind_ok]
      cases b1
      · exact ⟨false, rfl⟩
      · exact ⟨b2, e2⟩

/-- Totality of the raw optional-field loop, given totality below the
size bound. -/
theorem checkOptE_total (N : ℕ)
    (IH : ∀ s : SchemaR, sizeOf s < N → ∀ v, ratBounds s = true →
      ∃ b, checkE s v = .ok b)
    (fields : List (String × SchemaR)) (hf : sizeOf fields ≤ N)
    (hb : ratBoundsFields fields = true) (entries : List (String × Value)) :
    ∃ b, checkOptE fields entries = .ok b := by
  induction fields with
  | nil => exact ⟨true, by rw [checkOptE]⟩
  | cons p rest ih =>
    obtain ⟨k, s⟩ := p
    rw [ratBoundsFields, Bool.and_eq_true] at hb
    have hsz : sizeOf ((k, s) :: rest) = 1 + (1 + sizeOf k + sizeOf s) + sizeOf rest := by
      simp only [List.cons.sizeOf_spec, Prod.mk.sizeOf_spec]
    obtain ⟨b2, e2⟩ := ih (by omega) hb.2
    rcases hg : dGet entries k with _ | x
    · exact ⟨b2, by rw [checkOptE, hg]; exact e2⟩
    · obtain ⟨b1, e1⟩ := IH s (by omega) x hb.1
      rw [checkOptE, hg]
      simp only [e1, exbind_ok]
      cases b1
      · exact ⟨false, rfl⟩
      · exact ⟨b2, e2⟩

/-- Totality of the raw check under numeric bounds, by strong
induction on the validator size: the raw bound comparisons are the
only partial operations on the check path, and numeric bounds make
them total. -/
theorem checkE_total_aux :
    ∀ (N : ℕ) (s : SchemaR), sizeOf s < N → ∀ v, ratBounds s = true →
      ∃ b, checkE s v = .ok b := by
  intro N
  induction N with
  | zero =>
    intro s hs
    exact absurd hs (Nat.not_lt_zero _)
  | succ N IH =>
    intro s hs v hb
    cases s with
    | allR alts =>
      rw [ratBounds] at hb
      have h1 : sizeOf (SchemaR.allR alts) = 1 + sizeOf alts := by
        simp only [SchemaR.allR.sizeOf_spec]
      rw [checkE.eq_def]
      exact checkListE_total N IH alts (by omega) hb v
    | anyR alts =>
      cases alts with
      | none => exact ⟨true, by rw [checkE.eq_def]⟩
      | some l =>
        rw [ratBounds, ratBoundsOList] at hb
        have h1 : sizeOf (SchemaR.anyR (some l)) = 1 + (1 + sizeOf l) := by
          simp only [SchemaR.anyR.sizeOf_spec, Option.some.sizeOf_spec]
        rw [checkE.eq_def]
        exact checkAnyE_total N IH l (by omega) hb v
    | arrR cs len =>
      rw [ratBounds, Bool.and_eq_true] at hb
      have h1 : sizeOf (SchemaR.arrR cs len) = 1 + sizeOf cs + sizeOf len := by
        simp only [SchemaR.arrR.sizeOf_spec]
      cases v with
      | varr items =>
        simp only [checkE]
        obtain ⟨b, e⟩ := boundRangeE_ok len ((items.length : ℚ)) hb.1
        rw [e]
        cases b
        · exact ⟨false, rfl⟩
        · exact checkItemsE_total N IH cs (by omega) hb.2 items
      | vnull => exact ⟨false, by rw [checkE.eq_def]⟩
      | vbool b => exact ⟨false, by rw [checkE.eq_def]⟩
      | vnum q => exact ⟨false, by rw [checkE.eq_def]⟩
      | vstr s => exact ⟨false, by rw [checkE.eq_def]⟩
      | vdict entries => exact ⟨false, by rw [checkE.eq_def]⟩
    | boolR => exact ⟨isVBool v, by rw [checkE.eq_def]⟩
    | defR => exact ⟨!(isVNull v), by rw [checkE.eq_def]⟩
    | failR => exact ⟨false, by rw [checkE.eq_def]⟩
    | intR r w =>
      rw [ratBounds.eq_def] at hb
      rcases ht : toNum v with _ | q
      · exact ⟨false, by rw [checkE.eq_def, ht]⟩
      · simp only [checkE, ht]
        by_cases hc : (!(isVBool v) && decide (q.den = 1)) = true
        · rw [if_pos hc]
          obtain ⟨b, e⟩ := boundRangeE_ok r q hb
          rw [e]
          cases b
          · exact ⟨false, rfl⟩
          · exact ⟨valMatch w q, rfl⟩
        · rw [if_neg hc]
          exact ⟨false, rfl⟩
    | mapR vs =>
      rw [ratBounds] at hb
      have h1 : sizeOf (SchemaR.mapR vs) = 1 + sizeOf vs := by
        simp only [SchemaR.mapR.sizeOf_spec]
      cases v with
      | vdict entries =>
        simp only [checkE]
        exact checkItemsE_total N IH vs (by omega) hb (entries.map Prod.snd)
      | vnull => exact ⟨false, by rw [checkE.eq_def]⟩
      | vbool b => exact ⟨false, by rw [checkE.eq_def]⟩
      | vnum q => exact ⟨false, by rw [checkE.eq_def]⟩
      | vstr s => exact ⟨false, by rw [checkE.eq_def]⟩
      | varr items => exact ⟨false, by rw [checkE.eq_def]⟩
    | nilR => exact ⟨isVNull v, by rw [checkE.eq_def]⟩
    | numR r w =>
      rw [ratBounds.eq_def] at hb
      rcases ht : toNum v with _ | q
      · exact ⟨false, by rw [checkE.eq_def, ht]⟩
      · simp only [checkE, ht]
        by_cases hc : (!(isVBool v)) = true
        · rw [if_pos hc]
          obtain ⟨b, e⟩ := boundRangeE_ok r q hb
          rw [e]
          cases b
          · exact ⟨false, rfl⟩
          · exact ⟨valMatch w q, rfl⟩
        · rw [if_neg hc]
          exact ⟨false, rfl⟩
    | oneR => exact ⟨isNumOrStr v, by rw [checkE.eq_def]⟩
    | recR req opt rest =>
      rw [ratBounds, Bool.and_eq_true, Bool.and_eq_true] at hb
      have h1 : sizeOf (SchemaR.recR req opt rest) =
          1 + sizeOf req + sizeOf opt + sizeOf rest := by
        simp only [SchemaR.recR.sizeOf_spec]
      cases v with
      | vdict entries =>
        simp only [checkE]
        by_cases hcond : (unknownKeysR req opt entries ≠ [] ∧ rest.isNone = true)
        · rw [if_pos hcond]
          exact ⟨false, rfl⟩
        · rw [if_neg hcond]
          obtain ⟨b1, e1⟩ := checkReqE_total N IH req (by omega) hb.1.1 entries
          obtain ⟨b2, e2⟩ := checkOptE_total N IH opt (by omega) hb.1.2 entries
          cases b1 with
          | false => exact ⟨false, by simp [e1, exbind_ok, expure]⟩
          | true =>
            cases b2 with
            | false => exact ⟨false, by simp [e1, e2, exbind_ok, expure]⟩
            | true =>
              by_cases hu : unknownKeysR req opt entries = []
              · exact ⟨true, by simp [e1, e2, exbind_ok, expure, hu]⟩
              · cases rest with
                | none => exact absurd ⟨hu, rfl⟩ hcond
                | some r =>
                  have hbr : ratBounds r = true := by
                    have h3 := hb.2
                    rw [ratBoundsORest] at h3
                    exact h3
                  have h2 : sizeOf (some r : Option SchemaR) = 1 + sizeOf r := by
                    simp only [Option.some.sizeOf_spec]
                  obtain ⟨b3, e3⟩ := IH r (by omega)
                    (.vdict (restrict entries (unknownKeysR req opt entries))) hbr
                  exact ⟨b3, by simp [e1, e2, e3, exbind_ok, expure, hu, checkORestE]⟩
      | vnull => exact ⟨false, by rw [checkE.eq_def]⟩
      | vbool b => exact ⟨false, by rw [checkE.eq_def]⟩
      | vnum q => exact ⟨false, by rw [checkE.eq_def]⟩
      | vstr s => exact ⟨false, by rw [checkE.eq_def]⟩
      | varr items => exact ⟨false, by rw [checkE.eq_def]⟩
    | seqR cs tl =>
      rw [ratBounds, Bool.and_eq_true] at hb
      have h1 : sizeOf (SchemaR.seqR cs tl) = 1 + sizeOf cs + sizeOf tl := by
        simp only [SchemaR.seqR.sizeOf_spec]
      cases v with
      | varr items =>
        simp only [checkE]
        by_cases hl : items.length < cs.length
        · rw [if_pos hl]
          exact ⟨false, rfl⟩
        · rw [if_neg hl]
          obtain ⟨b1, e1⟩ := checkZipE_total N IH cs (by omega) hb.1 items
          cases b1 with
          | false => exact ⟨false, by simp [e1, exbind_ok, expure]⟩
          | true =>
            by_cases h2 : cs.length < items.length
            · cases tl with
              | none => exact ⟨false, by simp [e1, exbind_ok, expure, h2, checkORestE]⟩
              | some t =>
                have hbt : ratBounds t = true := by
                  have h4 := hb.2
                  rw [ratBoundsORest] at h4
                  exact h4
                have h3 : sizeOf (some t : Option SchemaR) = 1 + sizeOf t := by
                  simp only [Option.some.sizeOf_spec]
                obtain ⟨b3, e3⟩ := IH t (by omega) (.varr (items.drop cs.length)) hbt
                exact ⟨b3, by simp [e1, e3, exbind_ok, expure, h2, checkORestE]⟩
            · exact ⟨true, by simp [e1, exbind_ok, expure, h2]⟩
      | vnull => exact ⟨false, by rw [checkE.eq_def]⟩
      | vbool b => exact ⟨false, by rw [checkE.eq_def]⟩
      | vnum q => exact ⟨false, by rw [checkE.eq_def]⟩
      | vstr s => exact ⟨false, by rw [checkE.eq_def]⟩
      | vdict entries => exact ⟨false, by rw [checkE.eq_def]⟩
    | strR w len =>
      rw [ratBounds.eq_def] at hb
      cases v with
      | vstr s =>
        simp only [checkE]
        by_cases hw : strValMatch w s = false
        · rw [if_pos hw]
          exact ⟨false, rfl⟩
        · rw [if_neg hw]
          exact boundRangeE_ok len ((s.length : ℚ)) hb
      | vnull => exact ⟨false, by rw [checkE.eq_def]⟩
      | vbool b => exact ⟨false, by rw [checkE.eq_def]⟩
      | vnum q => exact ⟨false, by rw [checkE.eq_def]⟩
      | varr items => exact ⟨false, by rw [checkE.eq_def]⟩
      | vdict entries => exact ⟨false, by rw [checkE.eq_def]⟩

/-- C1 counterexample: the claim says check never raises for every
compiled validator and every runtime value, only compilation may
fail.  But make_range_check validates only the key names of a range
specification, never the bound values, so the specification with the
string bound min: x compiles, IntType's constructor accepts it, and
the resulting compiled validator's check raises TypeError on the
ordinary integer 5 when the comparison of the string bound against
the number is evaluated (Python 3 refuses to order a str against a
number). -/
theorem spec_c1_counterexample :
    make_range_check_raw [("min", .vstr "x")] = .ok [("min", .vstr "x")] ∧
    mkIntRaw [("type", .vstr "//int"), ("range", .vdict [("min", .vstr "x")])] =
      .ok (.intR (some [("min", .vstr "x")]) none) ∧
    checkE (.intR (some [("min", .vstr "x")]) none) (.vnum 5) =
      .error (.typeError "unorderable types in comparison") := by
  refine ⟨rfl, rfl, ?_⟩
  rw [checkE.eq_def]
  rfl

/-- C1 amended: for every compiled validator (of any of the fourteen
kinds) all of whose captured range bounds are numeric — the documented
range format, which compilation does not enforce — and every runtime
value, check(value) returns a boolean and never raises; only
compilation may fail.  Without the numeric-bounds restriction the
statement is false (see the counterexample): the raw bound
comparisons are the one partial operation on the check path. -/
theorem spec_c1_amended (s : SchemaR) (v : Value) (h : ratBounds s = true) :
    ∃ b, checkE s v = .ok b :=
  checkE_total_aux (sizeOf s + 1) s (Nat.lt_succ_self _) v h

/-- Witness for C1's amended theorem: an int validator with the
numeric range bound min 0 satisfies the numeric-bounds restriction
and never raises, here at the value 5. -/
theorem spec_c1_witness :
    ratBounds (.intR (some [("min", .vnum 0)]) none) = true ∧
    ∃ b, checkE (.intR (some [("min", .vnum 0)]) none) (.vnum 5) = .ok b :=
  ⟨by rw [ratBounds.eq_def]; rfl,
   spec_c1_amended (.intR (some [("min", .vnum 0)]) none) (.vnum 5)
     (by rw [ratBounds.eq_def]; rfl)⟩
